import Mathlib

/-!
Verification of the OneWireAzureSphere bus engine.

This file shallowly embeds the OneWire protocol engine of the repository:
the CRC8 accumulator, the UART bit physical layer (reset classification and
the bounded byte-read retry loop from `onewireuart.c`), the ROM addressing
commands (`OneWireMatchROM`, `OneWireSkipROM`, `OneWireSingleReadROM`), and
the ternary-search enumeration algorithm (`OneWireSearchROM`,
`OneWireResetSearch`, `OneWireTargetSetup`, `OneWireVerifyROM` from
`onewiresearch.c`).

External bus activity is modelled by an oracle (`Bus`): the outcome of the
reset pulse, the successive results of `OneWireReadBit` (`-1`, `0` or `1`),
and the successive acknowledgements of `OneWireWriteBit`.  The oracle also
records, as traces, the number of reset pulses issued and the bits written,
so that theorems can speak about what a sequence put on the wire.  Machine
bytes are `Nat` with explicit `% 256` where the C code relies on `uint8_t`
truncation; fallible reads are `Int` with the C sentinel `-1`.
-/

namespace OneWireAzure

/-- The four-way outcome of a reset pulse (`OneWireResetResponse` in
`onewire.h`, mirrored by `OneWireUartResetResponse` in the UART layer). -/
inductive OneWireResetResponse where
  | DevicePresent
  | NoDevices
  | NoData
  | HardwareFailure
deriving DecidableEq

/-- Modelled from the spec: the table-free bit-serial CRC8 step of `crc8.c`
(the `.c` file is not present in the sources, only `crc8.h`).  Per the spec,
for each of the 8 bits of the input byte (LSB first) it computes
`mix = accumulator XOR bit`, shifts the accumulator right one bit, and
XORs it with `0x8C` when `mix` is 1. -/
def doCrc8Aux : Nat → Nat → Nat → Nat
  | 0, crc, _ => crc
  | n + 1, crc, value =>
      let mix := (crc ^^^ value) % 2
      let crc2 := crc / 2
      doCrc8Aux n (if mix = 1 then crc2 ^^^ 0x8C else crc2) (value / 2)

/-- Modelled from the spec: `DoCrc8` of `crc8.c` folds one input byte into the
running CRC8 accumulator. -/
def DoCrc8 (crc value : Nat) : Nat := doCrc8Aux 8 crc value

/-- The process state owned by the enumeration/addressing layer: the Search
Cursor flags of `onewiresearch.c`, the 8-byte current identifier `OneWireROM`
of `onewirerom.c`, and the global CRC8 accumulator of `crc8.c`. -/
structure OWState where
  lastDeviceFlag : Nat
  lastDiscrepancy : Nat
  lastFamilyDiscrepancy : Nat
  rom : List Nat
  crc : Nat
deriving DecidableEq

/-- `OneWireROMGetByte` of `onewirerom.c`. -/
def OneWireROMGetByte (s : OWState) (index : Nat) : Nat := s.rom.getD index 0

/-- `OneWireROMSetByte` of `onewirerom.c`; the `data` parameter is a
`uint8_t`, hence the `% 256`. -/
def OneWireROMSetByte (s : OWState) (index : Nat) (data : Nat) : OWState :=
  { s with rom := s.rom.set index (data % 256) }

/-- The bus oracle: the response the environment gives to the reset pulse,
the successive results of `OneWireReadBit`, the successive results of
`OneWireWriteBit`, plus two observation traces (number of resets issued and
bits written on the wire). -/
structure Bus where
  resetResp : OneWireResetResponse
  readBits : List Int
  writeAcks : List Bool
  resets : Nat
  written : List Nat
deriving DecidableEq

/-- `OneWireReset` of the addressing layer: issues the reset waveform and
reports the classification supplied by the environment (the oracle field `resetResp`). -/
def OneWireReset (bus : Bus) : OneWireResetResponse × Bus :=
  (bus.resetResp, { bus with resets := bus.resets + 1 })

/-- `OneWireReadBit`: returns `-1` on error, otherwise the bit value, as
supplied by the oracle (consuming one entry of `readBits`). -/
def OneWireReadBit (bus : Bus) : Int × Bus :=
  (bus.readBits.headD (-1), { bus with readBits := bus.readBits.tail })

/-- `OneWireWriteBit`: transmits one bit (recorded in the `written` trace)
and reports success as supplied by the oracle (consuming one `writeAcks`
entry). -/
def OneWireWriteBit (bit : Nat) (enableStrongPullup : Bool) (bus : Bus) :
    Bool × Bus :=
  (bus.writeAcks.headD false,
   { bus with writeAcks := bus.writeAcks.tail, written := bus.written ++ [bit] })

/-- The loop of `OneWireSendByteOptionalPullup`: sends the 8 bits of `data`
LSB first, AND-accumulating the per-bit success. -/
def sendByteAux : Nat → Nat → Bool → Bool → Bus → Bool × Bus
  | 0, _, _, status, bus => (status, bus)
  | n + 1, data, pullup, status, bus =>
      let w := OneWireWriteBit (data % 2) pullup bus
      sendByteAux n (data / 2) pullup (status && w.1) w.2

/-- `OneWireSendByte` of the addressing layer (pullup disabled). -/
def OneWireSendByte (data : Nat) (bus : Bus) : Bool × Bus :=
  sendByteAux 8 data false true bus

/-- The loop of `OneWireReceiveByte`: reads 8 bits LSB first; a failed bit
read (`-1`) forces the accumulated data to `-1` (all bits on, as in the C
`int`), a `1` bit ORs in `1 << i`. -/
def receiveByteAux : Nat → Nat → Int → Bus → Int × Bus
  | 0, _, data, bus => (data, bus)
  | n + 1, i, data, bus =>
      let r := OneWireReadBit bus
      let data2 :=
        if r.1 = -1 then (-1 : Int)
        else if r.1 = 1 then Int.lor data (Int.ofNat (2 ^ i))
        else data
      receiveByteAux n (i + 1) data2 r.2

/-- `OneWireReceiveByte`: reads a byte from the bus, `-1` on error. -/
def OneWireReceiveByte (bus : Bus) : Int × Bus := receiveByteAux 8 0 0 bus

/-- Writes `buf[i]`, `buf[i+1]`, … into identifier bytes `i`, `i+1`, … for
`n` steps (the `for` loops of `OneWireResetSearch` and of the commit phase of
`OneWireSingleReadROM`). -/
def setRomBytes : Nat → Nat → List Nat → OWState → OWState
  | 0, _, _, s => s
  | n + 1, i, buf, s => setRomBytes n (i + 1) buf (OneWireROMSetByte s i (buf.getD i 0))

/-- `OneWireResetSearch` of `onewiresearch.c`: clears the three Search Cursor
flags and zeroes the 8 identifier bytes. -/
def OneWireResetSearch (s : OWState) : OWState :=
  setRomBytes 8 0 (List.replicate 8 0)
    { s with lastDeviceFlag := 0, lastDiscrepancy := 0, lastFamilyDiscrepancy := 0 }

/-- `OneWireTargetSetup` of `onewiresearch.c`: reset the search, preset the
family byte, and set `OneWireLastDiscrepancy` to `0x40`. -/
def OneWireTargetSetup (familyId : Nat) (s : OWState) : OWState :=
  let s2 := OneWireResetSearch s
  let s3 := OneWireROMSetByte s2 0 familyId
  { s3 with lastDiscrepancy := 0x40 }

/-- The direction chosen by `OneWireSearchROM` at a collision (`id_bit` and
`cmp_id_bit` both 0): replay the stored identifier bit when before the last
discrepancy, `1` at the last discrepancy, `0` otherwise (lines 158-162 of
`onewiresearch.c`). -/
def searchDirection (idBitNumber : Nat) (s : OWState)
    (romByteNumber romByteMask : Nat) : Nat :=
  if idBitNumber < s.lastDiscrepancy then
    if OneWireROMGetByte s romByteNumber &&& romByteMask > 0 then 1 else 0
  else if idBitNumber = s.lastDiscrepancy then 1 else 0

/-- Outcome of one iteration of the `do … while` search loop: `brk` models a
C `break` (carrying the loop locals at exit), `cont` carries the updated loop
locals into the next iteration. -/
inductive StepResult where
  | brk (idBitNumber lastZero : Nat) (s : OWState) (bus : Bus)
  | cont (idBitNumber lastZero romByteNumber romByteMask : Nat) (s : OWState) (bus : Bus)
deriving DecidableEq

/-- The pass-local `last_zero` at the end of the step. -/
def StepResult.lastZeroOut : StepResult → Nat
  | .brk _ lz _ _ => lz
  | .cont _ lz _ _ _ _ => lz

/-- The process state at the end of the step. -/
def StepResult.stateOut : StepResult → OWState
  | .brk _ _ s _ => s
  | .cont _ _ _ _ s _ => s

/-- The bus oracle at the end of the step. -/
def StepResult.busOut : StepResult → Bus
  | .brk _ _ _ bus => bus
  | .cont _ _ _ _ _ bus => bus

/-- One iteration of the search loop of `OneWireSearchROM` (lines 140-199 of
`onewiresearch.c`): read a bit and its complement, break on read failure or
`(1,1)`, resolve the direction (directly on an unambiguous pair, via
`searchDirection` on a collision, recording `last_zero` and the family
discrepancy when `0` is chosen), store the bit in the identifier, write it on
the bus (break on failure), then advance the bit counter, the byte mask and,
on byte completion, fold the byte into the CRC. -/
def searchIteration (idBitNumber lastZero romByteNumber romByteMask : Nat)
    (s : OWState) (bus : Bus) : StepResult :=
  let r1 := OneWireReadBit bus
  let id_bit := r1.1
  let r2 := OneWireReadBit r1.2
  let cmp_id_bit := r2.1
  let bus2 := r2.2
  if id_bit = -1 ∨ cmp_id_bit = -1 then .brk idBitNumber lastZero s bus2
  else if id_bit = 1 ∧ cmp_id_bit = 1 then .brk idBitNumber lastZero s bus2
  else
    let dls :=
      if id_bit ≠ cmp_id_bit then (id_bit.toNat, lastZero, s)
      else
        let sd := searchDirection idBitNumber s romByteNumber romByteMask
        if sd = 0 then
          let lz := idBitNumber
          let s2 := if lz < 9 then { s with lastFamilyDiscrepancy := lz } else s
          (sd, lz, s2)
        else (sd, lastZero, s)
    let search_direction := dls.1
    let lz2 := dls.2.1
    let s3 := dls.2.2
    let s4 :=
      if search_direction = 1 then
        OneWireROMSetByte s3 romByteNumber
          (OneWireROMGetByte s3 romByteNumber ||| romByteMask)
      else
        OneWireROMSetByte s3 romByteNumber
          (OneWireROMGetByte s3 romByteNumber &&& (255 ^^^ romByteMask))
    let w := OneWireWriteBit search_direction false bus2
    if w.1 = false then .brk idBitNumber lz2 s4 w.2
    else
      let ibn2 := idBitNumber + 1
      let mask2 := romByteMask * 2 % 256
      if mask2 = 0 then
        let s5 := { s4 with crc := DoCrc8 s4.crc (OneWireROMGetByte s4 romByteNumber) }
        .cont ibn2 lz2 (romByteNumber + 1) 1 s5 w.2
      else
        .cont ibn2 lz2 romByteNumber mask2 s4 w.2

/-- The `do … while (rom_byte_number < 8)` loop of `OneWireSearchROM`, with
explicit fuel (the loop runs at most 64 iterations from its initial values).
Returns the final `id_bit_number`, `last_zero`, process state and bus. -/
def searchLoop : Nat → Nat → Nat → Nat → Nat → OWState → Bus →
    Nat × Nat × OWState × Bus
  | 0, idBitNumber, lastZero, _, _, s, bus => (idBitNumber, lastZero, s, bus)
  | fuel + 1, idBitNumber, lastZero, romByteNumber, romByteMask, s, bus =>
      match searchIteration idBitNumber lastZero romByteNumber romByteMask s bus with
      | .brk i lz s2 b2 => (i, lz, s2, b2)
      | .cont i lz rbn m s2 b2 =>
          if rbn < 8 then searchLoop fuel i lz rbn m s2 b2
          else (i, lz, s2, b2)

/-- The full 64-bit walk of one search pass: reset the bus, send the search
command (`0xEC` when alarm-only, `0xF0` otherwise, the send status being
discarded as in the C), and run the loop from `id_bit_number = 1`,
`last_zero = 0`, `rom_byte_number = 0`, `rom_byte_mask = 1` with a cleared
CRC accumulator. -/
def searchPass (alarmSearch : Bool) (s : OWState) (bus : Bus) :
    Nat × Nat × OWState × Bus :=
  searchLoop 64 1 0 0 1 { s with crc := 0 }
    ((OneWireSendByte (if alarmSearch then 0xEC else 0xF0) (OneWireReset bus).2).2)

/-- `OneWireSearchROM` of `onewiresearch.c`.  If `OneWireLastDeviceFlag` is
set the search block is skipped and the trailing no-device block resets the
cursor; a failed reset resets the cursor and returns early; otherwise the
pass runs, is validated (`id_bit_number ≥ 65` and CRC accumulator 0, then
`LastDiscrepancy := last_zero`, with `LastDeviceFlag` when it is 0), and the
trailing block discards the result when the pass failed or the family byte
is zero. -/
def OneWireSearchROM (alarmSearch : Bool) (s : OWState) (bus : Bus) :
    Bool × OWState × Bus :=
  if ¬ (s.lastDeviceFlag = 0) then
    (false, { s with crc := 0, lastDiscrepancy := 0, lastDeviceFlag := 0,
                     lastFamilyDiscrepancy := 0 }, bus)
  else
    let r := OneWireReset bus
    if ¬ (r.1 = OneWireResetResponse.DevicePresent) then
      (false, { s with crc := 0, lastDiscrepancy := 0, lastDeviceFlag := 0,
                       lastFamilyDiscrepancy := 0 }, r.2)
    else
      let p := searchPass alarmSearch s bus
      let idBitNumber := p.1
      let lastZero := p.2.1
      let s2 := p.2.2.1
      let bus2 := p.2.2.2
      if ¬ (idBitNumber < 65 ∨ ¬ (s2.crc = 0)) then
        let s3 := { s2 with lastDiscrepancy := lastZero }
        let s4 := if s3.lastDiscrepancy = 0 then { s3 with lastDeviceFlag := 1 } else s3
        if OneWireROMGetByte s4 0 = 0 then
          (false, { s4 with lastDiscrepancy := 0, lastDeviceFlag := 0,
                            lastFamilyDiscrepancy := 0 }, bus2)
        else (true, s4, bus2)
      else
        (false, { s2 with lastDiscrepancy := 0, lastDeviceFlag := 0,
                          lastFamilyDiscrepancy := 0 }, bus2)

/-- The forced cursor state `OneWireVerifyROM` installs before its search
pass: `LastDiscrepancy = 0x40`, `LastDeviceFlag = 0`, and (per the note in the source
about application note 187) `LastFamilyDiscrepancy = 0`. -/
def verifySetup (s : OWState) : OWState :=
  { s with lastDiscrepancy := 0x40, lastDeviceFlag := 0, lastFamilyDiscrepancy := 0 }

/-- The restore loop of `OneWireVerifyROM`: for each of `n` identifier bytes
from index `i`, when the snapshot differs from the current byte, clear the
verified flag and write the snapshot byte back. -/
def restoreRom : Nat → Nat → List Nat → Bool → OWState → Bool × OWState
  | 0, _, _, v, s => (v, s)
  | n + 1, i, snap, v, s =>
      if snap.getD i 0 ≠ OneWireROMGetByte s i then
        restoreRom n (i + 1) snap false (OneWireROMSetByte s i (snap.getD i 0))
      else
        restoreRom n (i + 1) snap v s

/-- `OneWireVerifyROM` of `onewiresearch.c`: snapshot the cursor and the
identifier, force the cursor via `verifySetup`, run one search pass, restore
any identifier byte that changed (clearing the verified flag), and restore
the cursor flags. -/
def OneWireVerifyROM (s : OWState) (bus : Bus) : Bool × OWState × Bus :=
  let lastDeviceFlag := s.lastDeviceFlag
  let lastDiscrepancy := s.lastDiscrepancy
  let lastFamilyDiscrepancy := s.lastFamilyDiscrepancy
  let snap := (List.range 8).map (fun i => OneWireROMGetByte s i)
  let r := OneWireSearchROM false (verifySetup s) bus
  let rr := restoreRom 8 0 snap r.1 r.2.1
  (rr.1,
   { rr.2 with lastDeviceFlag := lastDeviceFlag, lastDiscrepancy := lastDiscrepancy,
               lastFamilyDiscrepancy := lastFamilyDiscrepancy },
   r.2.2)

/-- The loop of `OneWireMatchROM` sending the 8 identifier bytes. -/
def sendRomBytes : Nat → Nat → OWState → Bus → Bus
  | 0, _, _, bus => bus
  | n + 1, i, s, bus =>
      sendRomBytes n (i + 1) s (OneWireSendByte (OneWireROMGetByte s i) bus).2

/-- `OneWireMatchROM` of the addressing layer: reset (result discarded),
send `0x55` and the 8 identifier bytes (results discarded), return `true`. -/
def OneWireMatchROM (s : OWState) (bus : Bus) : Bool × OWState × Bus :=
  let r := OneWireReset bus
  let b2 := (OneWireSendByte 0x55 r.2).2
  (true, s, sendRomBytes 8 0 s b2)

/-- `OneWireSkipROM` of the addressing layer: reset (result discarded), send
`0xCC` (result discarded), return `true`. -/
def OneWireSkipROM (s : OWState) (bus : Bus) : Bool × OWState × Bus :=
  let r := OneWireReset bus
  (true, s, (OneWireSendByte 0xCC r.2).2)

/-- The read loop of `OneWireSingleReadROM`: receive `n` bytes starting at
index `i`, folding each into the CRC and staging it in the local buffer;
`none` when a byte read fails. -/
def singleReadLoop : Nat → Nat → List Nat → OWState → Bus →
    Option (List Nat) × OWState × Bus
  | 0, _, buf, s, bus => (some buf, s, bus)
  | n + 1, i, buf, s, bus =>
      let r := OneWireReceiveByte bus
      if r.1 = -1 then (none, s, r.2)
      else
        let b := r.1.toNat % 256
        singleReadLoop n (i + 1) (buf ++ [b]) { s with crc := DoCrc8 s.crc b } r.2

/-- The staged read of `OneWireSingleReadROM`: reset (result discarded), send
`0x33`, clear the CRC, and read 8 bytes into the local buffer. -/
def singleReadAttempt (s : OWState) (bus : Bus) :
    Option (List Nat) × OWState × Bus :=
  singleReadLoop 8 0 [] { s with crc := 0 }
    ((OneWireSendByte 0x33 (OneWireReset bus).2).2)

/-- `OneWireSingleReadROM`: fail when a byte read failed or the accumulated
CRC is nonzero, otherwise commit the 8 staged bytes as the identifier. -/
def OneWireSingleReadROM (s : OWState) (bus : Bus) : Bool × OWState × Bus :=
  let p := singleReadAttempt s bus
  match p.1 with
  | none => (false, p.2.1, p.2.2)
  | some buf =>
      if ¬ (p.2.1.crc = 0) then (false, p.2.1, p.2.2)
      else (true, setRomBytes 8 0 buf p.2.1, p.2.2)

/-- The initial all-zero process state. -/
def initState : OWState :=
  { lastDeviceFlag := 0, lastDiscrepancy := 0, lastFamilyDiscrepancy := 0,
    rom := List.replicate 8 0, crc := 0 }

/-- One cursor-mutating operation of the search API, carrying its own bus
oracle where bus traffic occurs. -/
inductive Op where
  | resetSearch
  | targetSetup (familyId : Nat)
  | searchROM (alarmSearch : Bool) (bus : Bus)
  | verifyROM (bus : Bus)

/-- Applies one operation to the process state. -/
def applyOp (s : OWState) : Op → OWState
  | .resetSearch => OneWireResetSearch s
  | .targetSetup familyId => OneWireTargetSetup familyId s
  | .searchROM alarmSearch bus => (OneWireSearchROM alarmSearch s bus).2.1
  | .verifyROM bus => (OneWireVerifyROM s bus).2.1

/-- Runs a sequence of operations from a starting state. -/
def runOps (s : OWState) (ops : List Op) : OWState := ops.foldl applyOp s

/-
The UART layer of `onewireuart.c`: the state of the serial channel plus the
oracles for the external calls (`close`, `UART_Open`, `write`, and the
per-attempt results of the non-blocking `read`).
-/

/-- The UART-layer state: the stored port id (`-1` when `OneWireInit` has not
run), the active baud rate (`0` when the channel is closed), whether the file
descriptor is open, the oracles for `close`/`UART_Open`/`write`, the
per-attempt receive oracle (`none` = no byte available on that attempt), and
a transmit trace. -/
structure Uart where
  uartId : Int
  uartBaud : Nat
  uartOpen : Bool
  closeOk : Bool
  openOk : Bool
  txOk : Bool
  rx : List (Option Nat)
  tx : List Nat
deriving DecidableEq

/-- `OneWireUartSetSpeed` of `onewireuart.c`: fail when the port id is unset;
no-op when the baud already matches; fail on a rate other than 9600 or
115200; otherwise close the open channel (failing if `close` fails, with the
descriptor already discarded) and reopen at the new rate. -/
def OneWireUartSetSpeed (u : Uart) (baud : Nat) : Bool × Uart :=
  if u.uartId = -1 then (false, u)
  else if u.uartBaud = baud then (true, u)
  else if ¬ (baud = 9600 ∨ baud = 115200) then (false, u)
  else
    let closed : Bool × Uart :=
      if u.uartOpen then (u.closeOk, { u with uartOpen := false, uartBaud := 0 })
      else (true, u)
    if closed.1 = false then (false, closed.2)
    else if ¬ closed.2.openOk then (false, closed.2)
    else (true, { closed.2 with uartBaud := baud, uartOpen := true })

/-- The retry loop of the static `OneWireUartReadByte`: up to `retryCount`
polls of the non-blocking receive path, sleeping 1 ms after each unsuccessful
poll.  Returns the byte read (`-1` when all polls failed), the remaining
receive oracle, the number of polls made, and the number of 1 ms sleeps. -/
def uartReadByteAux : Nat → List (Option Nat) → Int × List (Option Nat) × Nat × Nat
  | 0, rx => (-1, rx, 0, 0)
  | retryCount + 1, rx =>
      match rx with
      | [] =>
          let r := uartReadByteAux retryCount []
          (r.1, r.2.1, r.2.2.1 + 1, r.2.2.2 + 1)
      | none :: rest =>
          let r := uartReadByteAux retryCount rest
          (r.1, r.2.1, r.2.2.1 + 1, r.2.2.2 + 1)
      | some b :: rest => (Int.ofNat (b % 256), rest, 1, 0)

/-- The static `OneWireUartReadByte` of `onewireuart.c`, with its fixed
`retryCount = 100`. -/
def OneWireUartReadByte (rx : List (Option Nat)) : Int × List (Option Nat) × Nat × Nat :=
  uartReadByteAux 100 rx

/-- The static `OneWireUartWriteByte`: disables the pullup, writes one octet
on the UART (traced), optionally re-enables the pullup; reports whether one
byte was sent. -/
def OneWireUartWriteByte (u : Uart) (data : Nat) (enableStrongPullup : Bool) :
    Bool × Uart :=
  (u.txOk, { u with tx := u.tx ++ [data % 256] })

/-- `OneWireUartReadByte` lifted to the `Uart` state (consuming its receive
oracle). -/
def uartReadByte (u : Uart) : Int × Uart :=
  let r := OneWireUartReadByte u.rx
  (r.1, { u with rx := r.2.1 })

/-- `OneWireUartPulseReset` of `onewireuart.c`: switch to 9600 baud (failure
is `HardwareFailure`), transmit the reset pattern `0b11110000` (write status
discarded), read the echo, and classify: no echo is `NoData`, an echo equal
to the transmitted pattern is `NoDevices`, anything else is
`DevicePresent`. -/
def OneWireUartPulseReset (u : Uart) : OneWireResetResponse × Uart :=
  let sp := OneWireUartSetSpeed u 9600
  if sp.1 = false then (.HardwareFailure, sp.2)
  else
    let u2 := (OneWireUartWriteByte sp.2 0b11110000 false).2
    let r := uartReadByte u2
    if r.1 = -1 then (.NoData, r.2)
    else if r.1 = 0b11110000 then (.NoDevices, r.2)
    else (.DevicePresent, r.2)

/-- The echo byte `OneWireUartPulseReset` classifies: the result of the
bounded-retry read on the receive oracle left after the switch to 9600
baud (the transmit itself does not consume the receive oracle). -/
def resetEcho (u : Uart) : Int :=
  (OneWireUartReadByte (OneWireUartSetSpeed u 9600).2.rx).1

/-! ## Basic lemmas about the identifier byte store -/

theorem romGet_set_ne (s : OWState) (i j data : Nat) (h : i ≠ j) :
    OneWireROMGetByte (OneWireROMSetByte s i data) j = OneWireROMGetByte s j := by
  unfold OneWireROMGetByte OneWireROMSetByte
  by_cases hj : j < s.rom.length
  · rw [List.getD_eq_getElem _ _ (by simpa using hj), List.getD_eq_getElem _ _ hj]
    exact List.getElem_set_ne h _
  · rw [List.getD_eq_default _ _ (by simpa using Nat.le_of_not_lt hj),
        List.getD_eq_default _ _ (Nat.le_of_not_lt hj)]

theorem romGet_set_self (s : OWState) (i data : Nat) (h : i < s.rom.length) :
    OneWireROMGetByte (OneWireROMSetByte s i data) i = data % 256 := by
  unfold OneWireROMGetByte OneWireROMSetByte
  rw [List.getD_eq_getElem _ _ (by simpa using h)]
  simp [List.getElem_set_self]

theorem romSet_length (s : OWState) (i data : Nat) :
    (OneWireROMSetByte s i data).rom.length = s.rom.length := by
  simp [OneWireROMSetByte]

theorem romSet_flags (s : OWState) (i data : Nat) :
    (OneWireROMSetByte s i data).lastDeviceFlag = s.lastDeviceFlag ∧
    (OneWireROMSetByte s i data).lastDiscrepancy = s.lastDiscrepancy ∧
    (OneWireROMSetByte s i data).lastFamilyDiscrepancy = s.lastFamilyDiscrepancy ∧
    (OneWireROMSetByte s i data).crc = s.crc := by
  simp [OneWireROMSetByte]

/-! ## Frame lemmas for one search-loop iteration -/

theorem searchIteration_frame (idBitNumber lastZero romByteNumber romByteMask : Nat)
    (s : OWState) (bus : Bus) :
    (searchIteration idBitNumber lastZero romByteNumber romByteMask s bus).stateOut.lastDeviceFlag
        = s.lastDeviceFlag ∧
    (searchIteration idBitNumber lastZero romByteNumber romByteMask s bus).stateOut.lastDiscrepancy
        = s.lastDiscrepancy ∧
    (searchIteration idBitNumber lastZero romByteNumber romByteMask s bus).stateOut.rom.length
        = s.rom.length ∧
    ((searchIteration idBitNumber lastZero romByteNumber romByteMask s bus).stateOut.lastFamilyDiscrepancy
        = s.lastFamilyDiscrepancy ∨
     (searchIteration idBitNumber lastZero romByteNumber romByteMask s bus).stateOut.lastFamilyDiscrepancy
        ≤ 8) := by
  simp only [searchIteration]
  repeat' split
  all_goals simp_all only [StepResult.stateOut, OneWireROMSetByte, List.length_set]
  all_goals refine ⟨?_, ?_, ?_, ?_⟩ <;>
    first
      | rfl
      | trivial
      | exact Or.inl rfl
      | (right; omega)
      | (left; trivial)

theorem searchLoop_frame :
    ∀ (fuel idBitNumber lastZero romByteNumber romByteMask : Nat) (s : OWState) (bus : Bus),
    (searchLoop fuel idBitNumber lastZero romByteNumber romByteMask s bus).2.2.1.lastDeviceFlag
        = s.lastDeviceFlag ∧
    (searchLoop fuel idBitNumber lastZero romByteNumber romByteMask s bus).2.2.1.lastDiscrepancy
        = s.lastDiscrepancy ∧
    (searchLoop fuel idBitNumber lastZero romByteNumber romByteMask s bus).2.2.1.rom.length
        = s.rom.length ∧
    (s.lastFamilyDiscrepancy ≤ 8 →
      (searchLoop fuel idBitNumber lastZero romByteNumber romByteMask s bus).2.2.1.lastFamilyDiscrepancy
        ≤ 8) := by
  intro fuel
  induction fuel with
  | zero => intro i lz rbn m s bus; exact ⟨rfl, rfl, rfl, fun h => h⟩
  | succ fuel ih =>
      intro i lz rbn m s bus
      have hit := searchIteration_frame i lz rbn m s bus
      simp only [searchLoop]
      cases h : searchIteration i lz rbn m s bus with
      | brk i2 lz2 s2 b2 =>
          rw [h] at hit
          simp only [StepResult.stateOut] at hit
          dsimp only
          refine ⟨hit.1, hit.2.1, hit.2.2.1, fun hf => ?_⟩
          show s2.lastFamilyDiscrepancy ≤ 8
          rcases hit.2.2.2 with he | hb
          · omega
          · exact hb
      | cont i2 lz2 rbn2 m2 s2 b2 =>
          rw [h] at hit
          simp only [StepResult.stateOut] at hit
          dsimp only
          split
          · have hrec := ih i2 lz2 rbn2 m2 s2 b2
            refine ⟨by rw [hrec.1, hit.1], by rw [hrec.2.1, hit.2.1],
                    by rw [hrec.2.2.1, hit.2.2.1], fun hf => ?_⟩
            apply hrec.2.2.2
            rcases hit.2.2.2 with he | hb
            · omega
            · exact hb
          · refine ⟨hit.1, hit.2.1, hit.2.2.1, fun hf => ?_⟩
            show s2.lastFamilyDiscrepancy ≤ 8
            rcases hit.2.2.2 with he | hb
            · omega
            · exact hb

/-- C3 counterexample: a state whose previous pass set `lastDeviceFlag` while
a first-byte discrepancy position was still recorded. -/
def doneCursorState : OWState :=
  { lastDeviceFlag := 1, lastDiscrepancy := 0, lastFamilyDiscrepancy := 3,
    rom := [0x28, 0, 0, 0, 0, 0, 0, 0], crc := 0 }

/-- A bus oracle with no bit traffic available. -/
def emptyBus : Bus :=
  { resetResp := .DevicePresent, readBits := [], writeAcks := [], resets := 0, written := [] }

/-- C3 (counterexample): calling `OneWireSearchROM` with `lastDeviceFlag` set
does report failure, but it does NOT leave the Search Cursor unchanged: the
trailing no-device block zeroes all three cursor fields, in particular
clearing `lastDeviceFlag` (1 becomes 0) and `lastFamilyDiscrepancy`
(3 becomes 0). -/
theorem searchROM_lastDevice_cursor_not_preserved :
    doneCursorState.lastDeviceFlag = 1 ∧
    (OneWireSearchROM false doneCursorState emptyBus).1 = false ∧
    ¬ ((OneWireSearchROM false doneCursorState emptyBus).2.1.lastDiscrepancy
          = doneCursorState.lastDiscrepancy ∧
       (OneWireSearchROM false doneCursorState emptyBus).2.1.lastDeviceFlag
          = doneCursorState.lastDeviceFlag ∧
       (OneWireSearchROM false doneCursorState emptyBus).2.1.lastFamilyDiscrepancy
          = doneCursorState.lastFamilyDiscrepancy) := by decide

/-- C3 (amended): while `lastDeviceFlag` is set from a prior pass, a call to
`OneWireSearchROM` reports failure, performs no bus activity, leaves the
identifier unchanged, and resets all three Search Cursor fields to 0 (so the
next search starts over like a first search; the caller may also reset the
cursor explicitly, but the call itself already clears it). -/
theorem searchROM_lastDevice_reports_failure_and_resets
    (alarmSearch : Bool) (s : OWState) (bus : Bus) (h : s.lastDeviceFlag ≠ 0) :
    (OneWireSearchROM alarmSearch s bus).1 = false ∧
    (OneWireSearchROM alarmSearch s bus).2.1.lastDiscrepancy = 0 ∧
    (OneWireSearchROM alarmSearch s bus).2.1.lastDeviceFlag = 0 ∧
    (OneWireSearchROM alarmSearch s bus).2.1.lastFamilyDiscrepancy = 0 ∧
    (OneWireSearchROM alarmSearch s bus).2.1.rom = s.rom ∧
    (OneWireSearchROM alarmSearch s bus).2.2 = bus := by
  unfold OneWireSearchROM
  rw [if_pos h]
  exact ⟨rfl, rfl, rfl, rfl, rfl, rfl⟩

/-- Witness for the amended C3 theorem at a concrete exhausted cursor. -/
theorem searchROM_lastDevice_reports_failure_and_resets_witness :
    (OneWireSearchROM false doneCursorState emptyBus).1 = false ∧
    (OneWireSearchROM false doneCursorState emptyBus).2.1.lastDiscrepancy = 0 ∧
    (OneWireSearchROM false doneCursorState emptyBus).2.1.lastDeviceFlag = 0 ∧
    (OneWireSearchROM false doneCursorState emptyBus).2.1.lastFamilyDiscrepancy = 0 ∧
    (OneWireSearchROM false doneCursorState emptyBus).2.1.rom = doneCursorState.rom ∧
    (OneWireSearchROM false doneCursorState emptyBus).2.2 = emptyBus :=
  searchROM_lastDevice_reports_failure_and_resets false doneCursorState emptyBus (by decide)

/-- A bus on which the reset pulse reports that no devices are present. -/
def noDevicesBus : Bus :=
  { resetResp := .NoDevices, readBits := [], writeAcks := [], resets := 0, written := [] }

/-- C6 (code-bug evidence): on a bus whose reset reports `NoDevices` (so the
reset did not return `DevicePresent`), `OneWireMatchROM` and `OneWireSkipROM`
still return `true`: the addressing sequences discard the reset result (and
every send result) instead of aborting and reporting failure.  They do leave
the Search Cursor untouched, and they do begin by issuing a reset. -/
theorem matchROM_skipROM_ignore_reset_failure :
    (OneWireReset noDevicesBus).1 ≠ .DevicePresent ∧
    (OneWireMatchROM initState noDevicesBus).1 = true ∧
    (OneWireSkipROM initState noDevicesBus).1 = true ∧
    (OneWireMatchROM initState noDevicesBus).2.1 = initState ∧
    (OneWireSkipROM initState noDevicesBus).2.1 = initState ∧
    (OneWireMatchROM initState noDevicesBus).2.2.resets = noDevicesBus.resets + 1 ∧
    (OneWireSkipROM initState noDevicesBus).2.2.resets = noDevicesBus.resets + 1 := by
  decide

/-- C5: `OneWireUartPulseReset` classifies its outcome into exactly four
cases: failing to configure the 9600-baud rate yields `HardwareFailure`; with
the rate configured, no echo (`-1`) yields `NoData`, an echo equal to the
transmitted pattern `0b11110000` yields `NoDevices`, and any other echo
yields `DevicePresent`. -/
theorem uartPulseReset_classification (u : Uart) :
    ((OneWireUartPulseReset u).1 = .HardwareFailure ↔
        (OneWireUartSetSpeed u 9600).1 = false) ∧
    ((OneWireUartPulseReset u).1 = .NoData ↔
        ((OneWireUartSetSpeed u 9600).1 = true ∧ resetEcho u = -1)) ∧
    ((OneWireUartPulseReset u).1 = .NoDevices ↔
        ((OneWireUartSetSpeed u 9600).1 = true ∧ resetEcho u = 0b11110000)) ∧
    ((OneWireUartPulseReset u).1 = .DevicePresent ↔
        ((OneWireUartSetSpeed u 9600).1 = true ∧ resetEcho u ≠ -1 ∧
         resetEcho u ≠ 0b11110000)) := by
  unfold OneWireUartPulseReset resetEcho uartReadByte OneWireUartWriteByte
  dsimp only
  split <;> rename_i hsp
  · simp_all
  · have hsp2 : (OneWireUartSetSpeed u 9600).1 = true := by
      revert hsp; cases (OneWireUartSetSpeed u 9600).1 <;> simp
    split <;> rename_i hecho
    · simp_all
    · split <;> rename_i hecho2 <;> simp_all

/-- The spec of the bounded-retry receive loop, for any fuel. -/
theorem uartReadByteAux_spec :
    ∀ (n : Nat) (rx : List (Option Nat)),
    (uartReadByteAux n rx).2.2.1 ≤ n ∧
    ((uartReadByteAux n rx).1 = -1 ↔
        ((rx.take n).all (fun o => o.isNone)) = true) ∧
    ((uartReadByteAux n rx).1 = -1 →
        (uartReadByteAux n rx).2.2.1 = n ∧ (uartReadByteAux n rx).2.2.2 = n) ∧
    ((uartReadByteAux n rx).1 ≠ -1 →
        (uartReadByteAux n rx).2.2.1 = (uartReadByteAux n rx).2.2.2 + 1) := by
  intro n
  induction n with
  | zero =>
      intro rx
      refine ⟨Nat.le_refl 0, by simp [uartReadByteAux], fun _ => ⟨rfl, rfl⟩, fun h => absurd rfl h⟩
  | succ n ih =>
      intro rx
      match rx with
      | [] =>
          have hr := ih []
          simp only [uartReadByteAux]
          refine ⟨by omega, ?_, fun h => ?_, fun h => ?_⟩
          · simpa using hr.2.1
          · have := hr.2.2.1 h
            omega
          · have := hr.2.2.2 h
            omega
      | none :: rest =>
          have hr := ih rest
          simp only [uartReadByteAux]
          refine ⟨by omega, ?_, fun h => ?_, fun h => ?_⟩
          · simpa using hr.2.1
          · have := hr.2.2.1 h
            omega
          · have := hr.2.2.2 h
            omega
      | some b :: rest =>
          refine ⟨?_, ?_, fun h => ?_, fun h => ?_⟩
          · show (1 : Nat) ≤ n + 1
            omega
          · show Int.ofNat (b % 256) = -1 ↔
              (((some b :: rest).take (n + 1)).all (fun o => o.isNone)) = true
            constructor
            · intro h
              exfalso
              have hnn : (0 : Int) ≤ Int.ofNat (b % 256) := Int.ofNat_nonneg _
              omega
            · intro h
              simp at h
          · exfalso
            have hc : Int.ofNat (b % 256) = -1 := h
            have hnn : (0 : Int) ≤ Int.ofNat (b % 256) := Int.ofNat_nonneg _
            omega
          · rfl

/-- C8: `OneWireUartReadByte` polls the non-blocking receive path at most 100
times, sleeping 1 ms after each unsuccessful poll (the sleep count equals the
poll count minus the final successful poll, if any), and when the first 100
polls all fail it terminates with the failure value `-1` after exactly 100
polls and 100 sleeps. -/
theorem uartReadByte_retry_policy (rx : List (Option Nat)) :
    (OneWireUartReadByte rx).2.2.1 ≤ 100 ∧
    ((OneWireUartReadByte rx).1 = -1 ↔
        ((rx.take 100).all (fun o => o.isNone)) = true) ∧
    ((OneWireUartReadByte rx).1 = -1 →
        (OneWireUartReadByte rx).2.2.1 = 100 ∧ (OneWireUartReadByte rx).2.2.2 = 100) ∧
    ((OneWireUartReadByte rx).1 ≠ -1 →
        (OneWireUartReadByte rx).2.2.1 = (OneWireUartReadByte rx).2.2.2 + 1) :=
  uartReadByteAux_spec 100 rx

/-- Witness for the C8 theorem: a receive path that never produces a byte is
abandoned after exactly 100 polls and 100 sleeps. -/
theorem uartReadByte_retry_policy_witness :
    (OneWireUartReadByte (List.replicate 120 (none : Option Nat))).2.2.1 = 100 ∧
    (OneWireUartReadByte (List.replicate 120 (none : Option Nat))).2.2.2 = 100 :=
  (uartReadByte_retry_policy (List.replicate 120 (none : Option Nat))).2.2.1 (by decide)

/-- The staged read loop of `OneWireSingleReadROM` never writes the
identifier: freshly read bytes go to the local buffer only. -/
theorem singleReadLoop_rom :
    ∀ (n i : Nat) (buf : List Nat) (s : OWState) (bus : Bus),
    (singleReadLoop n i buf s bus).2.1.rom = s.rom := by
  intro n
  induction n with
  | zero => intro i buf s bus; rfl
  | succ n ih =>
      intro i buf s bus
      simp only [singleReadLoop]
      split
      · rfl
      · exact ih (i + 1) _ _ _

/-- C10: whenever `OneWireSingleReadROM` returns `false` (a byte read failed
or the accumulated CRC8 was nonzero), the current 8-byte identifier is left
exactly as it was before the call: the bytes are staged in a local buffer and
committed only after all reads and the CRC check succeed. -/
theorem singleReadROM_failure_preserves_rom (s : OWState) (bus : Bus)
    (h : (OneWireSingleReadROM s bus).1 = false) :
    (OneWireSingleReadROM s bus).2.1.rom = s.rom := by
  have hrom : (singleReadAttempt s bus).2.1.rom = s.rom :=
    singleReadLoop_rom 8 0 [] { s with crc := 0 }
      ((OneWireSendByte 0x33 (OneWireReset bus).2).2)
  unfold OneWireSingleReadROM at h ⊢
  dsimp only at h ⊢
  cases hp : (singleReadAttempt s bus).1 with
  | none =>
      simp only [hp] at h ⊢
      exact hrom
  | some buf =>
      simp only [hp] at h ⊢
      by_cases hc : ¬ ((singleReadAttempt s bus).2.1.crc = 0)
      · rw [if_pos hc] at h ⊢
        exact hrom
      · rw [if_neg hc] at h
        simp at h

/-- A process state with a distinctive identifier, used to exhibit
preservation on failure. -/
def sampleRomState : OWState :=
  { lastDeviceFlag := 0, lastDiscrepancy := 0, lastFamilyDiscrepancy := 0,
    rom := [0x28, 0xAA, 1, 2, 3, 4, 5, 6], crc := 0 }

/-- Witness for C10: on a bus with no read data the call fails and the
identifier is untouched. -/
theorem singleReadROM_failure_preserves_rom_witness :
    (OneWireSingleReadROM sampleRomState emptyBus).2.1.rom = sampleRomState.rom :=
  singleReadROM_failure_preserves_rom sampleRomState emptyBus (by decide)

/-! ## Lemmas about the byte-send trace and the identifier commit loop -/

theorem sendByteAux_resets :
    ∀ (n data : Nat) (pullup status : Bool) (bus : Bus),
    (sendByteAux n data pullup status bus).2.resets = bus.resets := by
  intro n
  induction n with
  | zero => intro data pullup status bus; rfl
  | succ n ih =>
      intro data pullup status bus
      simp only [sendByteAux, OneWireWriteBit]
      rw [ih]

theorem sendByteAux_written :
    ∀ (n data : Nat) (pullup status : Bool) (bus : Bus),
    (sendByteAux n data pullup status bus).2.written
      = bus.written ++ (List.range n).map (fun k => data / 2 ^ k % 2) := by
  intro n
  induction n with
  | zero => intro data pullup status bus; simp [sendByteAux]
  | succ n ih =>
      intro data pullup status bus
      simp only [sendByteAux, OneWireWriteBit]
      rw [ih]
      dsimp only
      rw [List.range_succ_eq_map, List.map_cons, List.map_map, ← List.append_cons]
      have hmap : List.map ((fun k => data / 2 ^ k % 2) ∘ Nat.succ) (List.range n)
          = List.map (fun k => data / 2 / 2 ^ k % 2) (List.range n) := by
        apply List.map_congr_left
        intro k _
        show data / 2 ^ (k + 1) % 2 = data / 2 / 2 ^ k % 2
        rw [Nat.div_div_eq_div_mul, ← Nat.pow_succ']
      rw [hmap]
      norm_num

theorem setRomBytes_length :
    ∀ (n i : Nat) (buf : List Nat) (s : OWState),
    (setRomBytes n i buf s).rom.length = s.rom.length := by
  intro n
  induction n with
  | zero => intro i buf s; rfl
  | succ n ih =>
      intro i buf s
      simp only [setRomBytes]
      rw [ih, romSet_length]

theorem setRomBytes_get_lt :
    ∀ (n i : Nat) (buf : List Nat) (s : OWState) (j : Nat), j < i →
    OneWireROMGetByte (setRomBytes n i buf s) j = OneWireROMGetByte s j := by
  intro n
  induction n with
  | zero => intro i buf s j _; rfl
  | succ n ih =>
      intro i buf s j hj
      simp only [setRomBytes]
      rw [ih (i + 1) buf _ j (by omega), romGet_set_ne _ _ _ _ (by omega)]

theorem setRomBytes_get_in :
    ∀ (n i : Nat) (buf : List Nat) (s : OWState) (j : Nat),
    i ≤ j → j < i + n → j < s.rom.length →
    OneWireROMGetByte (setRomBytes n i buf s) j = buf.getD j 0 % 256 := by
  intro n
  induction n with
  | zero => intro i buf s j h1 h2 _; omega
  | succ n ih =>
      intro i buf s j h1 h2 h3
      simp only [setRomBytes]
      by_cases hji : j = i
      · subst hji
        rw [setRomBytes_get_lt n (j + 1) buf _ j (by omega)]
        exact romGet_set_self s j _ h3
      · rw [ih (i + 1) buf _ j (by omega) (by omega) (by rw [romSet_length]; exact h3)]

/-- On a successful staged read the buffer grows by exactly `n` bytes, each
already truncated to `uint8_t` range. -/
theorem singleReadLoop_some_spec :
    ∀ (n i : Nat) (buf : List Nat) (s : OWState) (bus : Bus) (out : List Nat),
    (singleReadLoop n i buf s bus).1 = some out →
    (∀ x ∈ buf, x < 256) →
    out.length = buf.length + n ∧ ∀ x ∈ out, x < 256 := by
  intro n
  induction n with
  | zero =>
      intro i buf s bus out h hb
      simp only [singleReadLoop, Option.some_inj] at h
      subst h
      exact ⟨rfl, hb⟩
  | succ n ih =>
      intro i buf s bus out h hb
      simp only [singleReadLoop] at h
      split at h
      · simp at h
      · have hrec := ih (i + 1) (buf ++ [(OneWireReceiveByte bus).1.toNat % 256]) _ _ out h ?_
        · refine ⟨?_, hrec.2⟩
          rw [hrec.1]
          simp
          omega
        · intro x hx
          rcases List.mem_append.mp hx with hx | hx
          · exact hb x hx
          · simp at hx
            omega

/-- C4: `OneWireSingleReadROM` issues a reset, sends the Read ROM command
byte `0x33` (its 8 bits LSB first on the wire), then reads 8 bytes while
accumulating CRC8; it returns `true` exactly when all 8 byte reads succeeded
and the accumulated CRC is zero, and in that case the 8 staged bytes are
committed, in read order, as identifier bytes 0 through 7. -/
theorem singleReadROM_spec (s : OWState) (bus : Bus) (hlen : s.rom.length = 8) :
    ((OneWireSendByte 0x33 (OneWireReset bus).2).2.resets = bus.resets + 1) ∧
    ((OneWireSendByte 0x33 (OneWireReset bus).2).2.written
        = bus.written ++ [1, 1, 0, 0, 1, 1, 0, 0]) ∧
    ((OneWireSingleReadROM s bus).1 = true ↔
        ((singleReadAttempt s bus).1.isSome = true ∧
         (singleReadAttempt s bus).2.1.crc = 0)) ∧
    (∀ buf, (singleReadAttempt s bus).1 = some buf →
        (OneWireSingleReadROM s bus).1 = true →
        buf.length = 8 ∧
        ∀ j, j < 8 →
          OneWireROMGetByte (OneWireSingleReadROM s bus).2.1 j = buf.getD j 0) := by
  have hwr : (OneWireSendByte 0x33 (OneWireReset bus).2).2.written
      = bus.written ++ [1, 1, 0, 0, 1, 1, 0, 0] := by
    show (sendByteAux 8 0x33 false true (OneWireReset bus).2).2.written = _
    rw [sendByteAux_written]
    rfl
  have hloopbuf := singleReadLoop_some_spec 8 0 [] { s with crc := 0 }
    ((OneWireSendByte 0x33 (OneWireReset bus).2).2)
  have hloopfrm : (singleReadAttempt s bus).2.1.rom = s.rom :=
    singleReadLoop_rom 8 0 [] { s with crc := 0 }
      ((OneWireSendByte 0x33 (OneWireReset bus).2).2)
  refine ⟨?_, hwr, ?_, ?_⟩
  · show (sendByteAux 8 0x33 false true (OneWireReset bus).2).2.resets = bus.resets + 1
    rw [sendByteAux_resets]
    rfl
  · unfold OneWireSingleReadROM
    dsimp only
    cases hp : (singleReadAttempt s bus).1 with
    | none => simp [hp]
    | some buf =>
        simp only [hp]
        by_cases hc : ¬ ((singleReadAttempt s bus).2.1.crc = 0)
        · rw [if_pos hc]
          simp [hc]
        · rw [if_neg hc]
          have hc2 := not_not.mp hc
          simp [hc2]
  · intro buf hpb hres
    have hbuf := hloopbuf buf hpb (by intro x hx; simp at hx)
    refine ⟨by simpa using hbuf.1, fun j hj => ?_⟩
    have hout : (OneWireSingleReadROM s bus).2.1
        = setRomBytes 8 0 buf (singleReadAttempt s bus).2.1 := by
      unfold OneWireSingleReadROM at hres ⊢
      dsimp only at hres ⊢
      rw [hpb] at hres ⊢
      dsimp only at hres ⊢
      by_cases hc : ¬ ((singleReadAttempt s bus).2.1.crc = 0)
      · rw [if_pos hc] at hres
        simp at hres
      · rw [if_neg hc]
    rw [hout]
    rw [setRomBytes_get_in 8 0 buf _ j (by omega) (by omega)
        (by rw [hloopfrm, hlen]; exact hj)]
    have hjlen : j < buf.length := by
      have := hbuf.1
      simp at this
      omega
    rw [List.getD_eq_getElem buf 0 hjlen]
    exact Nat.mod_eq_of_lt (hbuf.2 _ (List.getElem_mem hjlen))

/-- A bus oracle on which a single device answers the Read ROM sequence with
the identifier `01 00 00 00 00 00 00 3D` (valid CRC), bit by bit, LSB
first. -/
def singleDeviceBus : Bus :=
  { resetResp := .DevicePresent,
    readBits := [1, 0, 0, 0, 0, 0, 0, 0] ++ List.replicate 48 0 ++ [1, 0, 1, 1, 1, 1, 0, 0],
    writeAcks := List.replicate 8 true, resets := 0, written := [] }

set_option maxRecDepth 4000 in
/-- Witness for C4: the concrete single-device read succeeds, and the claim
theorem yields the committed first byte. -/
theorem singleReadROM_spec_witness :
    ((OneWireSingleReadROM initState singleDeviceBus).1 = true ↔
        ((singleReadAttempt initState singleDeviceBus).1.isSome = true ∧
         (singleReadAttempt initState singleDeviceBus).2.1.crc = 0)) ∧
    OneWireROMGetByte (OneWireSingleReadROM initState singleDeviceBus).2.1 0
        = ([1, 0, 0, 0, 0, 0, 0, 0x3D] : List Nat).getD 0 0 :=
  ⟨(singleReadROM_spec initState singleDeviceBus (by decide)).2.2.1,
   ((singleReadROM_spec initState singleDeviceBus (by decide)).2.2.2
      [1, 0, 0, 0, 0, 0, 0, 0x3D] (by decide) (by decide)).2 0 (by decide)⟩

/-- C2: a search pass reports success only if all 64 bit positions were
completed (`id_bit_number` reached 65) and the CRC8 accumulator over the 8
identifier bytes is 0, and on every successful pass the cursor field
`lastDiscrepancy` becomes the pass-local `last_zero`, with `lastDeviceFlag`
set exactly when that value is 0. -/
theorem searchROM_valid_pass (alarmSearch : Bool) (s : OWState) (bus : Bus)
    (h : (OneWireSearchROM alarmSearch s bus).1 = true) :
    65 ≤ (searchPass alarmSearch s bus).1 ∧
    (searchPass alarmSearch s bus).2.2.1.crc = 0 ∧
    (OneWireSearchROM alarmSearch s bus).2.1.lastDiscrepancy
        = (searchPass alarmSearch s bus).2.1 ∧
    ((OneWireSearchROM alarmSearch s bus).2.1.lastDeviceFlag = 1 ↔
        (searchPass alarmSearch s bus).2.1 = 0) := by
  unfold OneWireSearchROM at h ⊢
  by_cases h0 : ¬ (s.lastDeviceFlag = 0)
  · rw [if_pos h0] at h
    simp at h
  · rw [if_neg h0] at h ⊢
    dsimp only at h ⊢
    by_cases hr : ¬ ((OneWireReset bus).1 = OneWireResetResponse.DevicePresent)
    · rw [if_pos hr] at h
      simp at h
    · rw [if_neg hr] at h ⊢
      by_cases hv : ¬ ((searchPass alarmSearch s bus).1 < 65 ∨
          ¬ ((searchPass alarmSearch s bus).2.2.1.crc = 0))
      · rw [if_pos hv] at h ⊢
        push_neg at hv
        have hflag : (searchPass alarmSearch s bus).2.2.1.lastDeviceFlag = 0 := by
          have := (searchLoop_frame 64 1 0 0 1 { s with crc := 0 }
            ((OneWireSendByte (if alarmSearch then 0xEC else 0xF0)
              (OneWireReset bus).2).2)).1
          have h0p := not_not.mp h0
          show (searchLoop 64 1 0 0 1 { s with crc := 0 }
            ((OneWireSendByte (if alarmSearch then 0xEC else 0xF0)
              (OneWireReset bus).2).2)).2.2.1.lastDeviceFlag = 0
          rw [this]
          exact h0p
        by_cases hz : (searchPass alarmSearch s bus).2.1 = 0
        · rw [if_pos hz] at h ⊢
          split at h <;> rename_i hrb
          · simp at h
          · rw [if_neg hrb]
            refine ⟨hv.1, hv.2, rfl, by simp [hz]⟩
        · rw [if_neg hz] at h ⊢
          split at h <;> rename_i hrb
          · simp at h
          · rw [if_neg hrb]
            refine ⟨hv.1, hv.2, rfl, ?_⟩
            constructor
            · intro h1
              exfalso
              rw [hflag] at h1
              omega
            · intro h1
              exact absurd h1 hz
      · rw [if_neg hv] at h
        simp at h

/-- A bus oracle carrying one device with identifier
`01 00 00 00 00 00 00 3D`: every bit pair read is unambiguous and every bit
write is acknowledged (8 command-byte acks plus 64 search-bit acks). -/
def searchWitnessBus : Bus :=
  { resetResp := .DevicePresent,
    readBits := ([1, 0, 0, 0, 0, 0, 0, 0] ++ List.replicate 48 0
        ++ [1, 0, 1, 1, 1, 1, 0, 0]).flatMap (fun b => [Int.ofNat b, Int.ofNat (1 - b)]),
    writeAcks := List.replicate 72 true, resets := 0, written := [] }

set_option maxRecDepth 8000 in
/-- Witness for C2: on the concrete one-device bus the pass succeeds with all
64 bits walked, zero CRC, `lastDiscrepancy = last_zero = 0` and the device
flag set. -/
theorem searchROM_valid_pass_witness :
    65 ≤ (searchPass false initState searchWitnessBus).1 ∧
    (searchPass false initState searchWitnessBus).2.2.1.crc = 0 ∧
    (OneWireSearchROM false initState searchWitnessBus).2.1.lastDiscrepancy
        = (searchPass false initState searchWitnessBus).2.1 ∧
    ((OneWireSearchROM false initState searchWitnessBus).2.1.lastDeviceFlag = 1 ↔
        (searchPass false initState searchWitnessBus).2.1 = 0) :=
  searchROM_valid_pass false initState searchWitnessBus (by decide)

/-- C1: at a collision (both the read bit and its complement are 0) at
1-based bit position `n = idBitNumber` (whose in-pass byte cursor is
`(n-1)/8` with mask `2^((n-1)%8)`), the direction chosen is: the identifier
bit currently stored at position `n` when `n` is before the recorded last
discrepancy, `1` at the last discrepancy, `0` otherwise; the chosen bit is
written to the bus and stored into the identifier at position `n`; and when
`0` is chosen, `n` becomes the pass-local `last_zero` and, when `n ≤ 8`,
also the family-discrepancy position. -/
theorem searchROM_collision_direction
    (idBitNumber lastZero romByteNumber romByteMask : Nat)
    (s : OWState) (bus : Bus)
    (hpos : 1 ≤ idBitNumber) (hle : idBitNumber ≤ 64)
    (hrbn : romByteNumber = (idBitNumber - 1) / 8)
    (hmask : romByteMask = 2 ^ ((idBitNumber - 1) % 8))
    (hlen : s.rom.length = 8)
    (hbyte : OneWireROMGetByte s romByteNumber < 256)
    (h1 : bus.readBits.headD (-1) = 0)
    (h2 : bus.readBits.tail.headD (-1) = 0)
    (hack : bus.writeAcks.headD false = true) :
    (searchDirection idBitNumber s romByteNumber romByteMask =
      if idBitNumber < s.lastDiscrepancy then
        (if Nat.testBit (OneWireROMGetByte s romByteNumber) ((idBitNumber - 1) % 8)
          then 1 else 0)
      else if idBitNumber = s.lastDiscrepancy then 1 else 0) ∧
    ((searchIteration idBitNumber lastZero romByteNumber romByteMask s bus).busOut.written
      = bus.written ++ [searchDirection idBitNumber s romByteNumber romByteMask]) ∧
    (Nat.testBit
        (OneWireROMGetByte
          (searchIteration idBitNumber lastZero romByteNumber romByteMask s bus).stateOut
          romByteNumber)
        ((idBitNumber - 1) % 8) = true ↔
      searchDirection idBitNumber s romByteNumber romByteMask = 1) ∧
    ((searchIteration idBitNumber lastZero romByteNumber romByteMask s bus).lastZeroOut
      = if searchDirection idBitNumber s romByteNumber romByteMask = 0
        then idBitNumber else lastZero) ∧
    ((searchIteration idBitNumber lastZero romByteNumber romByteMask s bus).stateOut.lastFamilyDiscrepancy
      = if searchDirection idBitNumber s romByteNumber romByteMask = 0 ∧ idBitNumber ≤ 8
        then idBitNumber else s.lastFamilyDiscrepancy) := by
  subst hrbn hmask
  have hk : (idBitNumber - 1) % 8 < 8 := Nat.mod_lt _ (by norm_num)
  have hmasklt : (2 : Nat) ^ ((idBitNumber - 1) % 8) < 2 ^ 8 :=
    Nat.pow_lt_pow_right (by norm_num) hk
  have hrbnlt : (idBitNumber - 1) / 8 < 8 := by omega
  have hbitequiv :
      (OneWireROMGetByte s ((idBitNumber - 1) / 8) &&& 2 ^ ((idBitNumber - 1) % 8) > 0)
        ↔ Nat.testBit (OneWireROMGetByte s ((idBitNumber - 1) / 8))
            ((idBitNumber - 1) % 8) = true := by
    rw [Nat.and_two_pow]
    cases hbit : Nat.testBit (OneWireROMGetByte s ((idBitNumber - 1) / 8))
        ((idBitNumber - 1) % 8) <;>
      simp [Nat.pos_pow_of_pos]
  have hpart1 : searchDirection idBitNumber s ((idBitNumber - 1) / 8)
      (2 ^ ((idBitNumber - 1) % 8)) =
      if idBitNumber < s.lastDiscrepancy then
        (if Nat.testBit (OneWireROMGetByte s ((idBitNumber - 1) / 8))
            ((idBitNumber - 1) % 8) then 1 else 0)
      else if idBitNumber = s.lastDiscrepancy then 1 else 0 := by
    unfold searchDirection
    by_cases hlt : idBitNumber < s.lastDiscrepancy
    · rw [if_pos hlt, if_pos hlt]
      by_cases hbit : Nat.testBit (OneWireROMGetByte s ((idBitNumber - 1) / 8))
          ((idBitNumber - 1) % 8) = true
      · rw [if_pos (hbitequiv.mpr hbit), if_pos hbit]
      · rw [if_neg (fun hcon => hbit (hbitequiv.mp hcon)), if_neg hbit]
    · rw [if_neg hlt, if_neg hlt]
  have hsd01 : searchDirection idBitNumber s ((idBitNumber - 1) / 8)
        (2 ^ ((idBitNumber - 1) % 8)) = 0 ∨
      searchDirection idBitNumber s ((idBitNumber - 1) / 8)
        (2 ^ ((idBitNumber - 1) % 8)) = 1 := by
    unfold searchDirection
    split
    · split <;> simp
    · split <;> simp
  have hbyteE : List.getD s.rom ((idBitNumber - 1) / 8) 0
      = OneWireROMGetByte s ((idBitNumber - 1) / 8) := rfl
  have hsetE : ∀ d : Nat, d < 256 →
      (s.rom.set ((idBitNumber - 1) / 8) (d % 256)).getD ((idBitNumber - 1) / 8) 0 = d := by
    intro d hd
    rw [Nat.mod_eq_of_lt hd, List.getD_eq_getElem _ _ (by simp [hlen]; omega)]
    simp [List.getElem_set_self]
  have hand : OneWireROMGetByte s ((idBitNumber - 1) / 8) &&&
      (255 ^^^ 2 ^ ((idBitNumber - 1) % 8)) < 256 :=
    lt_of_le_of_lt Nat.and_le_left hbyte
  have hor : OneWireROMGetByte s ((idBitNumber - 1) / 8) |||
      2 ^ ((idBitNumber - 1) % 8) < 256 := by
    have := Nat.or_lt_two_pow (n := 8) (by simpa using hbyte) hmasklt
    simpa using this
  have handbit : Nat.testBit (OneWireROMGetByte s ((idBitNumber - 1) / 8) &&&
      (255 ^^^ 2 ^ ((idBitNumber - 1) % 8))) ((idBitNumber - 1) % 8) = false := by
    rw [Nat.testBit_and, Nat.testBit_xor,
      show (255 : Nat) = 2 ^ 8 - 1 by norm_num,
      Nat.testBit_two_pow_sub_one, Nat.testBit_two_pow_self]
    simp [hk]
  have horbit : Nat.testBit (OneWireROMGetByte s ((idBitNumber - 1) / 8) |||
      2 ^ ((idBitNumber - 1) % 8)) ((idBitNumber - 1) % 8) = true := by
    rw [Nat.testBit_or, Nat.testBit_two_pow_self]
    simp
  refine ⟨hpart1, ?_, ?_, ?_, ?_⟩ <;>
    rcases hsd01 with hsd | hsd <;>
    simp only [searchIteration, OneWireReadBit, OneWireWriteBit, h1, h2, hack, hsd] <;>
    norm_num <;>
    by_cases hm : (2 : Nat) ^ ((idBitNumber - 1) % 8) * 2 % 256 = 0 <;>
    by_cases hfam : idBitNumber < 9 <;>
    simp only [hm, hfam, if_true, if_false, ite_true, ite_false, and_true, and_false,
      StepResult.busOut, StepResult.stateOut, StepResult.lastZeroOut,
      OneWireROMGetByte, OneWireROMSetByte] <;>
    first
      | rfl
      | omega
      | (rw [hbyteE, hsetE _ hand, handbit]
         try simp [hsd])
      | (rw [hbyteE, hsetE _ hor, horbit]
         try simp [hsd])
      | (rw [if_pos (show idBitNumber ≤ 8 by omega)])
      | (rw [if_neg (show ¬ idBitNumber ≤ 8 by omega)])

/-- A cursor state about to hit a fresh collision: no recorded discrepancy,
so a collision at bit 3 must choose direction 0. -/
def collisionState : OWState :=
  { lastDeviceFlag := 0, lastDiscrepancy := 0, lastFamilyDiscrepancy := 0,
    rom := [3, 0, 0, 0, 0, 0, 0, 0], crc := 0 }

/-- A bus oracle presenting a collision (both reads 0) with the write
acknowledged. -/
def collisionBus : Bus :=
  { resetResp := .DevicePresent, readBits := [0, 0], writeAcks := [true],
    resets := 0, written := [] }

/-- Witness for C1 at bit position 3 (byte 0, mask 4) with no recorded
discrepancy: direction 0 is chosen, written to the bus, stored in the
identifier, and recorded as `last_zero` and family discrepancy. -/
theorem searchROM_collision_direction_witness :
    (searchDirection 3 collisionState 0 4 =
      if 3 < collisionState.lastDiscrepancy then
        (if Nat.testBit (OneWireROMGetByte collisionState 0) ((3 - 1) % 8)
          then 1 else 0)
      else if 3 = collisionState.lastDiscrepancy then 1 else 0) ∧
    ((searchIteration 3 7 0 4 collisionState collisionBus).busOut.written
      = collisionBus.written ++ [searchDirection 3 collisionState 0 4]) ∧
    (Nat.testBit
        (OneWireROMGetByte
          (searchIteration 3 7 0 4 collisionState collisionBus).stateOut 0)
        ((3 - 1) % 8) = true ↔
      searchDirection 3 collisionState 0 4 = 1) ∧
    ((searchIteration 3 7 0 4 collisionState collisionBus).lastZeroOut
      = if searchDirection 3 collisionState 0 4 = 0 then 3 else 7) ∧
    ((searchIteration 3 7 0 4 collisionState collisionBus).stateOut.lastFamilyDiscrepancy
      = if searchDirection 3 collisionState 0 4 = 0 ∧ 3 ≤ 8
        then 3 else collisionState.lastFamilyDiscrepancy) :=
  searchROM_collision_direction 3 7 0 4 collisionState collisionBus
    (by decide) (by decide) (by decide) (by decide) (by decide) (by decide)
    (by decide) (by decide) (by decide)

/-! ## The first-byte bound on the family-discrepancy cursor field -/

theorem setRomBytes_fam :
    ∀ (n i : Nat) (buf : List Nat) (s : OWState),
    (setRomBytes n i buf s).lastFamilyDiscrepancy = s.lastFamilyDiscrepancy := by
  intro n
  induction n with
  | zero => intro i buf s; rfl
  | succ n ih =>
      intro i buf s
      simp only [setRomBytes]
      rw [ih]
      rfl

theorem resetSearch_fam (s : OWState) :
    (OneWireResetSearch s).lastFamilyDiscrepancy = 0 := by
  unfold OneWireResetSearch
  rw [setRomBytes_fam]

theorem targetSetup_fam (familyId : Nat) (s : OWState) :
    (OneWireTargetSetup familyId s).lastFamilyDiscrepancy = 0 := by
  unfold OneWireTargetSetup
  dsimp only
  rw [show (OneWireROMSetByte (OneWireResetSearch s) 0 familyId).lastFamilyDiscrepancy
      = (OneWireResetSearch s).lastFamilyDiscrepancy from rfl, resetSearch_fam]

theorem verifyROM_fam (s : OWState) (bus : Bus) :
    (OneWireVerifyROM s bus).2.1.lastFamilyDiscrepancy = s.lastFamilyDiscrepancy := rfl

theorem searchROM_fam_le (alarmSearch : Bool) (s : OWState) (bus : Bus)
    (h : s.lastFamilyDiscrepancy ≤ 8) :
    (OneWireSearchROM alarmSearch s bus).2.1.lastFamilyDiscrepancy ≤ 8 := by
  unfold OneWireSearchROM
  split
  · dsimp only
    omega
  · dsimp only
    split
    · dsimp only
      omega
    · have hf := (searchLoop_frame 64 1 0 0 1 { s with crc := 0 }
        ((OneWireSendByte (if alarmSearch then 0xEC else 0xF0)
          (OneWireReset bus).2).2)).2.2.2 (by simpa using h)
      split
      · split <;> split <;> dsimp only <;> first | omega | simpa using hf
      · dsimp only
        omega

theorem applyOp_fam (s : OWState) (op : Op) (h : s.lastFamilyDiscrepancy ≤ 8) :
    (applyOp s op).lastFamilyDiscrepancy ≤ 8 := by
  cases op with
  | resetSearch =>
      show (OneWireResetSearch s).lastFamilyDiscrepancy ≤ 8
      rw [resetSearch_fam]
      omega
  | targetSetup familyId =>
      show (OneWireTargetSetup familyId s).lastFamilyDiscrepancy ≤ 8
      rw [targetSetup_fam]
      omega
  | searchROM alarmSearch bus => exact searchROM_fam_le alarmSearch s bus h
  | verifyROM bus =>
      show (OneWireVerifyROM s bus).2.1.lastFamilyDiscrepancy ≤ 8
      rw [verifyROM_fam]
      exact h

/-- C9: in every state reachable from the initial all-zero cursor through
any sequence of `resetSearch`, `targetSetup`, `searchROM` and `verifyROM`
calls (each with an arbitrary bus oracle), `lastFamilyDiscrepancy` is at
most 8: every operation zeroes it, restores a previously valid value, or
assigns a collision position strictly below 9. -/
theorem cursor_family_discrepancy_invariant (ops : List Op) :
    (runOps initState ops).lastFamilyDiscrepancy ≤ 8 := by
  have key : ∀ (l : List Op) (s : OWState), s.lastFamilyDiscrepancy ≤ 8 →
      (runOps s l).lastFamilyDiscrepancy ≤ 8 := by
    intro l
    induction l with
    | nil => intro s h; exact h
    | cons op rest ih => intro s h; exact ih (applyOp s op) (applyOp_fam s op h)
  exact key ops initState (by decide)

/-! ## Lemmas about the verify snapshot/restore machinery -/

theorem searchROM_rom_length (alarmSearch : Bool) (s : OWState) (bus : Bus) :
    (OneWireSearchROM alarmSearch s bus).2.1.rom.length = s.rom.length := by
  unfold OneWireSearchROM
  split
  · rfl
  · dsimp only
    split
    · rfl
    · have hl := (searchLoop_frame 64 1 0 0 1 { s with crc := 0 }
        ((OneWireSendByte (if alarmSearch then 0xEC else 0xF0)
          (OneWireReset bus).2).2)).2.2.1
      split
      · split <;> split <;> dsimp only <;> simpa using hl
      · dsimp only
        simpa using hl

theorem restoreRom_length :
    ∀ (n i : Nat) (snap : List Nat) (v : Bool) (s : OWState),
    (restoreRom n i snap v s).2.rom.length = s.rom.length := by
  intro n
  induction n with
  | zero => intro i snap v s; rfl
  | succ n ih =>
      intro i snap v s
      simp only [restoreRom]
      split
      · rw [ih, romSet_length]
      · rw [ih]

theorem restoreRom_get_lt :
    ∀ (n i : Nat) (snap : List Nat) (v : Bool) (s : OWState) (j : Nat), j < i →
    OneWireROMGetByte (restoreRom n i snap v s).2 j = OneWireROMGetByte s j := by
  intro n
  induction n with
  | zero => intro i snap v s j _; rfl
  | succ n ih =>
      intro i snap v s j hj
      simp only [restoreRom]
      split
      · rw [ih (i + 1) snap false _ j (by omega), romGet_set_ne _ _ _ _ (by omega)]
      · rw [ih (i + 1) snap v s j (by omega)]

theorem restoreRom_get_in :
    ∀ (n i : Nat) (snap : List Nat) (v : Bool) (s : OWState) (j : Nat),
    i ≤ j → j < i + n → j < s.rom.length → snap.getD j 0 < 256 →
    OneWireROMGetByte (restoreRom n i snap v s).2 j = snap.getD j 0 := by
  intro n
  induction n with
  | zero => intro i snap v s j h1 h2 _ _; omega
  | succ n ih =>
      intro i snap v s j h1 h2 h3 h4
      simp only [restoreRom]
      by_cases hji : j = i
      · subst hji
        split <;> rename_i hne
        · rw [restoreRom_get_lt n (j + 1) snap false _ j (by omega),
            romGet_set_self s j _ h3, Nat.mod_eq_of_lt h4]
        · rw [restoreRom_get_lt n (j + 1) snap v s j (by omega)]
          omega
      · split
        · exact ih (i + 1) snap false _ j (by omega) (by omega)
            (by rw [romSet_length]; exact h3) h4
        · exact ih (i + 1) snap v s j (by omega) (by omega) h3 h4

theorem restoreRom_verified :
    ∀ (n i : Nat) (snap : List Nat) (v : Bool) (s : OWState),
    ((restoreRom n i snap v s).1 = true ↔
      (v = true ∧ ∀ j, i ≤ j → j < i + n → OneWireROMGetByte s j = snap.getD j 0)) := by
  intro n
  induction n with
  | zero =>
      intro i snap v s
      constructor
      · intro h
        exact ⟨h, fun j h1 h2 => by omega⟩
      · intro h
        exact h.1
  | succ n ih =>
      intro i snap v s
      simp only [restoreRom]
      split <;> rename_i hne
      · rw [ih (i + 1) snap false (OneWireROMSetByte s i (snap.getD i 0))]
        constructor
        · intro h
          exact absurd h.1 (by simp)
        · intro h
          exact absurd (h.2 i (by omega) (by omega)).symm hne
      · rw [ih (i + 1) snap v s]
        have heq : OneWireROMGetByte s i = snap.getD i 0 := by
          by_contra hcon
          exact hne (fun hcc => hcon hcc.symm)
        constructor
        · intro h
          refine ⟨h.1, fun j h1 h2 => ?_⟩
          by_cases hji : j = i
          · subst hji
            exact heq
          · exact h.2 j (by omega) (by omega)
        · intro h
          exact ⟨h.1, fun j h1 h2 => h.2 j (by omega) (by omega)⟩

theorem snapshot_getD (s : OWState) (j : Nat) (hj : j < 8) :
    ((List.range 8).map (fun i => OneWireROMGetByte s i)).getD j 0
      = OneWireROMGetByte s j := by
  rw [List.getD_eq_getElem _ _ (by simpa using hj)]
  simp

/-- C7: `OneWireVerifyROM` restores the Search Cursor (all three fields) and
the 8-byte identifier to their pre-call values regardless of outcome, and
returns `true` exactly when the forced single-target search pass (run from
the `verifySetup` cursor) succeeded and reproduced the snapshotted identifier
byte for byte. -/
theorem verifyROM_restores_and_reports (s : OWState) (bus : Bus)
    (hlen : s.rom.length = 8) (hb : ∀ b ∈ s.rom, b < 256) :
    (OneWireVerifyROM s bus).2.1.lastDeviceFlag = s.lastDeviceFlag ∧
    (OneWireVerifyROM s bus).2.1.lastDiscrepancy = s.lastDiscrepancy ∧
    (OneWireVerifyROM s bus).2.1.lastFamilyDiscrepancy = s.lastFamilyDiscrepancy ∧
    (OneWireVerifyROM s bus).2.1.rom = s.rom ∧
    ((OneWireVerifyROM s bus).1 = true ↔
      ((OneWireSearchROM false (verifySetup s) bus).1 = true ∧
       (OneWireSearchROM false (verifySetup s) bus).2.1.rom = s.rom)) := by
  have hslen : (OneWireSearchROM false (verifySetup s) bus).2.1.rom.length = 8 := by
    rw [searchROM_rom_length]
    exact hlen
  have hsnapb : ∀ j, j < 8 →
      ((List.range 8).map (fun i => OneWireROMGetByte s i)).getD j 0 < 256 := by
    intro j hj
    rw [snapshot_getD s j hj]
    have hjl : j < s.rom.length := by omega
    rw [show OneWireROMGetByte s j = s.rom.getD j 0 from rfl,
        List.getD_eq_getElem _ _ hjl]
    exact hb _ (List.getElem_mem hjl)
  have hromeq : (restoreRom 8 0 ((List.range 8).map (fun i => OneWireROMGetByte s i))
      (OneWireSearchROM false (verifySetup s) bus).1
      (OneWireSearchROM false (verifySetup s) bus).2.1).2.rom = s.rom := by
    apply List.ext_getElem
    · rw [restoreRom_length, hslen, hlen]
    · intro j hj1 hj2
      have hj8 : j < 8 := by
        rw [restoreRom_length, hslen] at hj1
        exact hj1
      rw [← List.getD_eq_getElem _ 0 hj1, ← List.getD_eq_getElem _ 0 hj2]
      rw [show (restoreRom 8 0 ((List.range 8).map (fun i => OneWireROMGetByte s i))
          (OneWireSearchROM false (verifySetup s) bus).1
          (OneWireSearchROM false (verifySetup s) bus).2.1).2.rom.getD j 0
        = OneWireROMGetByte (restoreRom 8 0
            ((List.range 8).map (fun i => OneWireROMGetByte s i))
            (OneWireSearchROM false (verifySetup s) bus).1
            (OneWireSearchROM false (verifySetup s) bus).2.1).2 j from rfl]
      rw [restoreRom_get_in 8 0 _ _ _ j (by omega) (by omega)
          (by rw [hslen]; exact hj8) (hsnapb j hj8)]
      rw [snapshot_getD s j hj8]
      rfl
  have hpoint : ((OneWireSearchROM false (verifySetup s) bus).1 = true ∧
      ∀ j, 0 ≤ j → j < 0 + 8 →
        OneWireROMGetByte (OneWireSearchROM false (verifySetup s) bus).2.1 j
          = ((List.range 8).map (fun i => OneWireROMGetByte s i)).getD j 0)
      ↔ ((OneWireSearchROM false (verifySetup s) bus).1 = true ∧
         (OneWireSearchROM false (verifySetup s) bus).2.1.rom = s.rom) := by
    constructor
    · intro h
      refine ⟨h.1, ?_⟩
      apply List.ext_getElem
      · rw [hslen, hlen]
      · intro j hj1 hj2
        have hj8 : j < 8 := by
          rw [hslen] at hj1
          exact hj1
        rw [← List.getD_eq_getElem _ 0 hj1, ← List.getD_eq_getElem _ 0 hj2]
        rw [show (OneWireSearchROM false (verifySetup s) bus).2.1.rom.getD j 0
            = OneWireROMGetByte (OneWireSearchROM false (verifySetup s) bus).2.1 j
            from rfl]
        rw [h.2 j (by omega) (by omega), snapshot_getD s j hj8]
        rfl
    · intro h
      refine ⟨h.1, fun j h1 h2 => ?_⟩
      have hj8 : j < 8 := by omega
      rw [snapshot_getD s j hj8,
        show OneWireROMGetByte (OneWireSearchROM false (verifySetup s) bus).2.1 j
          = (OneWireSearchROM false (verifySetup s) bus).2.1.rom.getD j 0 from rfl,
        h.2]
      rfl
  refine ⟨rfl, rfl, rfl, hromeq, ?_⟩
  show (restoreRom 8 0 ((List.range 8).map (fun i => OneWireROMGetByte s i))
      (OneWireSearchROM false (verifySetup s) bus).1
      (OneWireSearchROM false (verifySetup s) bus).2.1).1 = true ↔ _
  rw [restoreRom_verified 8 0 _ _ _]
  exact hpoint

/-- Witness for C7 at a concrete state and the empty bus (the forced search
fails, the cursor and identifier are restored and the call reports false). -/
theorem verifyROM_restores_and_reports_witness :
    (OneWireVerifyROM sampleRomState emptyBus).2.1.lastDeviceFlag
        = sampleRomState.lastDeviceFlag ∧
    (OneWireVerifyROM sampleRomState emptyBus).2.1.lastDiscrepancy
        = sampleRomState.lastDiscrepancy ∧
    (OneWireVerifyROM sampleRomState emptyBus).2.1.lastFamilyDiscrepancy
        = sampleRomState.lastFamilyDiscrepancy ∧
    (OneWireVerifyROM sampleRomState emptyBus).2.1.rom = sampleRomState.rom ∧
    ((OneWireVerifyROM sampleRomState emptyBus).1 = true ↔
      ((OneWireSearchROM false (verifySetup sampleRomState) emptyBus).1 = true ∧
       (OneWireSearchROM false (verifySetup sampleRomState) emptyBus).2.1.rom
          = sampleRomState.rom)) :=
  verifyROM_restores_and_reports sampleRomState emptyBus (by decide) (by decide)

end OneWireAzure

